import Mathlib

/-!
Shallow embedding of the zubix-pod-backend realtime gateway
(`src/socket.ts`, the Socket.IO handlers) and the room message
pagination endpoint (`src/routes/rooms.ts`, `GET /:roomId/messages`).

The database is a record of association lists mirroring the Prisma
tables actually consulted by the gateway; connections carry the
authenticated user snapshot, the single tracked `currentRoom`, and the
set of transport channels the socket has joined.  Each event handler is
a function from a gateway state (database plus live connections) and
the requesting connection id to the next state together with the list
of `(recipient connection id, server→client event)` emissions; the
Socket.IO primitives `io.to(ch).emit` and `socket.to(ch).emit` are
expanded over the current connection list.
-/

namespace ZubixPod

/-- A persisted chat message (`prisma.message`).  `roomId`/`chatId` is the
exclusive room-or-chat foreign key; `createdAt` is the creation
timestamp used as the ordering key. -/
structure Message where
  id : Nat
  content : String
  roomId : Option String
  chatId : Option String
  senderId : String
  createdAt : Nat
deriving DecidableEq, Repr

/-- A pod (`prisma.pod`, projected to the fields the gateway selects). -/
structure Pod where
  id : String
  ownerId : String
deriving DecidableEq, Repr

/-- A room (`prisma.room`); belongs to exactly one pod. -/
structure Room where
  id : String
  podId : String
deriving DecidableEq, Repr

/-- A direct chat (`prisma.chat`); `updatedAt` is its last-activity
timestamp. -/
structure Chat where
  id : String
  updatedAt : Nat
deriving DecidableEq, Repr

/-- The backing store, restricted to the tables the gateway and the
pagination endpoint touch.  `podMembers` and `chatParticipants` are the
junction tables keyed by `(podId, userId)` / `(chatId, userId)`.
`nextMessageId` generates message ids; `now` is the clock stamped onto
new rows. -/
structure DB where
  pods : List Pod
  rooms : List Room
  podMembers : List (String × String)
  chats : List Chat
  chatParticipants : List (String × String)
  messages : List Message
  nextMessageId : Nat
  now : Nat
deriving DecidableEq, Repr

/-- JavaScript whitespace for `String.prototype.trim()` (the characters
that matter for chat content). -/
def isWS (c : Char) : Bool :=
  c = ' ' || c = '\t' || c = '\n' || c = '\r'

/-- `content.trim()`: strip leading and trailing whitespace. -/
def jsTrim (s : String) : String :=
  ⟨(((s.data.dropWhile isWS).reverse.dropWhile isWS)).reverse⟩

/-- `prisma.room.findUnique({ where: { id: roomId } })`. -/
def findRoom (db : DB) (roomId : String) : Option Room :=
  db.rooms.find? (fun r => r.id = roomId)

/-- `prisma.pod.findUnique` by id (the `include: { pod: ... }` join). -/
def findPod (db : DB) (podId : String) : Option Pod :=
  db.pods.find? (fun p => p.id = podId)

/-- The room lookup with its pod included, as the handlers perform it:
`prisma.room.findUnique({ where: { id: roomId }, include: { pod:
{ select: { id, ownerId } } } })`. -/
def findRoomWithPod (db : DB) (roomId : String) : Option (Room × Pod) :=
  match findRoom db roomId with
  | none => none
  | some r =>
    match findPod db r.podId with
    | none => none
    | some p => some (r, p)

/-- `prisma.podMember.findUnique({ where: { podId_userId } })`, used as a
boolean admission check. -/
def isPodMember (db : DB) (podId userId : String) : Bool :=
  (podId, userId) ∈ db.podMembers

/-- `prisma.chatParticipant.findUnique({ where: { chatId_userId } })`,
used as a boolean admission check. -/
def isChatParticipant (db : DB) (chatId userId : String) : Bool :=
  (chatId, userId) ∈ db.chatParticipants

/-- `prisma.chat.findUnique` by id. -/
def findChat (db : DB) (chatId : String) : Option Chat :=
  db.chats.find? (fun c => c.id = chatId)

/-- Transport channel names.  The source keeps the three addressing
spaces disjoint by prefixing: rooms are joined under the raw room id,
chats under `chat:<chatId>`, notification channels under
`user:<userId>`. -/
inductive Channel where
  | room (roomId : String)
  | chat (chatId : String)
  | user (userId : String)
deriving DecidableEq, Repr

/-- Server→client events, with the payload fields the claims are about.
`errorMsg` is the `error { message }` event. -/
inductive SEvent where
  | errorMsg (message : String)
  | roomJoined (roomId : String)
  | roomLeft (roomId : String)
  | userJoined (userId : String)
  | userLeft (userId : String)
  | newMessage (m : Message)
  | chatJoined (chatId : String)
  | newDm (m : Message)
  | userTyping (userId : String)
  | userStoppedTyping (userId : String)
  | dmUserTyping (userId : String)
  | dmUserStoppedTyping (userId : String)
  | notificationsJoined
deriving DecidableEq, Repr

/-- A live authenticated socket: the identity snapshot attached by the
auth middleware, the tracked `socket.currentRoom`, and the set of
transport channels the socket is currently joined to. -/
structure Conn where
  connId : Nat
  userId : String
  username : String
  currentRoom : Option String
  channels : List Channel
deriving DecidableEq, Repr

/-- Gateway state: the backing store plus the live connections. -/
structure GState where
  db : DB
  conns : List Conn
deriving DecidableEq, Repr

/-- Handler output: next gateway state and the list of
`(recipient connection id, event)` deliveries. -/
structure HOut where
  state : GState
  emits : List (Nat × SEvent)
deriving DecidableEq, Repr

def findConn (conns : List Conn) (cid : Nat) : Option Conn :=
  conns.find? (fun c => c.connId = cid)

def updateConn (conns : List Conn) (cid : Nat) (f : Conn → Conn) : List Conn :=
  conns.map (fun c => if c.connId = cid then f c else c)

/-- `socket.join(ch)`: Socket.IO room membership is a set, so joining a
channel already joined is a no-op. -/
def joinChannel (chs : List Channel) (ch : Channel) : List Channel :=
  if ch ∈ chs then chs else chs ++ [ch]

/-- `socket.leave(ch)`. -/
def leaveChannel (chs : List Channel) (ch : Channel) : List Channel :=
  chs.filter (fun c => c ≠ ch)

/-- The connection ids currently joined to a channel. -/
def channelMembers (conns : List Conn) (ch : Channel) : List Nat :=
  (conns.filter (fun c => ch ∈ c.channels)).map (fun c => c.connId)

/-- `io.to(ch).emit(ev)`: deliver to every connection joined to `ch`,
the sender included when it is joined. -/
def emitToChannel (conns : List Conn) (ch : Channel) (ev : SEvent) : List (Nat × SEvent) :=
  (channelMembers conns ch).map (fun cid => (cid, ev))

/-- `socket.to(ch).emit(ev)`: deliver to every connection joined to
`ch` except the requesting socket. -/
def emitToOthers (conns : List Conn) (cid : Nat) (ch : Channel) (ev : SEvent) :
    List (Nat × SEvent) :=
  ((channelMembers conns ch).filter (fun c => c ≠ cid)).map (fun c => (c, ev))

/-- `socket.join(roomId); socket.currentRoom = roomId`. -/
def joinRoomUpd (roomId : String) (c : Conn) : Conn :=
  { c with channels := joinChannel c.channels (.room roomId), currentRoom := some roomId }

/-- `socket.leave(roomId); socket.currentRoom = undefined`. -/
def leaveRoomUpd (roomId : String) (c : Conn) : Conn :=
  { c with channels := leaveChannel c.channels (.room roomId), currentRoom := none }

/-- `socket.join("chat:" + chatId)`. -/
def joinChatUpd (chatId : String) (c : Conn) : Conn :=
  { c with channels := joinChannel c.channels (.chat chatId) }

/-- `socket.leave("chat:" + chatId)`. -/
def leaveChatUpd (chatId : String) (c : Conn) : Conn :=
  { c with channels := leaveChannel c.channels (.chat chatId) }

/-- `socket.join("user:" + userId)`. -/
def joinUserUpd (userId : String) (c : Conn) : Conn :=
  { c with channels := joinChannel c.channels (.user userId) }

/-- The `join-room` handler. -/
def joinRoom (st : GState) (cid : Nat) (roomId : String) : HOut :=
  match findConn st.conns cid with
  | none => ⟨st, []⟩
  | some sock =>
    match findRoomWithPod st.db roomId with
    | none => ⟨st, [(cid, .errorMsg "Room not found")]⟩
    | some (_, pod) =>
      let isMember := isPodMember st.db pod.id sock.userId
      let isOwner := pod.ownerId = sock.userId
      if !isMember && !isOwner then
        ⟨st, [(cid, .errorMsg "You must be a member of this pod to join this room")]⟩
      else
        let conns' := updateConn st.conns cid (joinRoomUpd roomId)
        ⟨{ st with conns := conns' },
          emitToOthers conns' cid (.room roomId) (.userJoined sock.userId) ++
            [(cid, .roomJoined roomId)]⟩

/-- The `leave-room` handler. -/
def leaveRoom (st : GState) (cid : Nat) (roomId : String) : HOut :=
  match findConn st.conns cid with
  | none => ⟨st, []⟩
  | some sock =>
    if sock.currentRoom = some roomId then
      let conns' := updateConn st.conns cid (leaveRoomUpd roomId)
      ⟨{ st with conns := conns' },
        emitToOthers conns' cid (.room roomId) (.userLeft sock.userId) ++
          [(cid, .roomLeft roomId)]⟩
    else ⟨st, []⟩

/-- The `send-message` handler. -/
def sendMessage (st : GState) (cid : Nat) (roomId content : String) : HOut :=
  match findConn st.conns cid with
  | none => ⟨st, []⟩
  | some sock =>
    if jsTrim content = "" then
      ⟨st, [(cid, .errorMsg "Message content is required")]⟩
    else
      match findRoomWithPod st.db roomId with
      | none => ⟨st, [(cid, .errorMsg "Room not found")]⟩
      | some (_, pod) =>
        let isMember := isPodMember st.db pod.id sock.userId
        let isOwner := pod.ownerId = sock.userId
        if !isMember && !isOwner then
          ⟨st, [(cid, .errorMsg "You must be a member of this pod to send messages")]⟩
        else
          let msg : Message :=
            { id := st.db.nextMessageId, content := jsTrim content,
              roomId := some roomId, chatId := none,
              senderId := sock.userId, createdAt := st.db.now }
          let db' := { st.db with
            messages := st.db.messages ++ [msg],
            nextMessageId := st.db.nextMessageId + 1,
            now := st.db.now + 1 }
          ⟨{ st with db := db' },
            emitToChannel st.conns (.room roomId) (.newMessage msg)⟩

/-- The `typing-start` handler. -/
def typingStart (st : GState) (cid : Nat) (roomId : String) : HOut :=
  match findConn st.conns cid with
  | none => ⟨st, []⟩
  | some sock =>
    if sock.currentRoom = some roomId then
      ⟨st, emitToOthers st.conns cid (.room roomId) (.userTyping sock.userId)⟩
    else ⟨st, []⟩

/-- The `typing-stop` handler. -/
def typingStop (st : GState) (cid : Nat) (roomId : String) : HOut :=
  match findConn st.conns cid with
  | none => ⟨st, []⟩
  | some sock =>
    if sock.currentRoom = some roomId then
      ⟨st, emitToOthers st.conns cid (.room roomId) (.userStoppedTyping sock.userId)⟩
    else ⟨st, []⟩

/-- The `join-chat` handler.  Note: no existence check on the chat id,
only the participant lookup. -/
def joinChat (st : GState) (cid : Nat) (chatId : String) : HOut :=
  match findConn st.conns cid with
  | none => ⟨st, []⟩
  | some sock =>
    if !(isChatParticipant st.db chatId sock.userId) then
      ⟨st, [(cid, .errorMsg "You are not a participant of this chat")]⟩
    else
      let conns' := updateConn st.conns cid (joinChatUpd chatId)
      ⟨{ st with conns := conns' }, [(cid, .chatJoined chatId)]⟩

/-- The `leave-chat` handler: unconditional leave, no emission. -/
def leaveChat (st : GState) (cid : Nat) (chatId : String) : HOut :=
  match findConn st.conns cid with
  | none => ⟨st, []⟩
  | some _ =>
    let conns' := updateConn st.conns cid (leaveChatUpd chatId)
    ⟨{ st with conns := conns' }, []⟩

/-- The `send-dm` handler.  `prisma.chat.update` on a missing row throws
and lands in the catch block, but the message row was already created:
no transaction spans the two writes. -/
def sendDm (st : GState) (cid : Nat) (chatId content : String) : HOut :=
  match findConn st.conns cid with
  | none => ⟨st, []⟩
  | some sock =>
    if jsTrim content = "" then
      ⟨st, [(cid, .errorMsg "Message content is required")]⟩
    else if !(isChatParticipant st.db chatId sock.userId) then
      ⟨st, [(cid, .errorMsg "You are not a participant of this chat")]⟩
    else
      let msg : Message :=
        { id := st.db.nextMessageId, content := jsTrim content,
          roomId := none, chatId := some chatId,
          senderId := sock.userId, createdAt := st.db.now }
      let dbMid := { st.db with
        messages := st.db.messages ++ [msg],
        nextMessageId := st.db.nextMessageId + 1,
        now := st.db.now + 1 }
      match findChat dbMid chatId with
      | none => ⟨{ st with db := dbMid }, [(cid, .errorMsg "Failed to send message")]⟩
      | some _ =>
        let db' := { dbMid with chats := dbMid.chats.map (fun c =>
          if c.id = chatId then { c with updatedAt := dbMid.now } else c) }
        ⟨{ st with db := db' },
          emitToChannel st.conns (.chat chatId) (.newDm msg)⟩

/-- The `dm-typing-start` handler: unconditional broadcast to the chat
channel, excluding the sender. -/
def dmTypingStart (st : GState) (cid : Nat) (chatId : String) : HOut :=
  match findConn st.conns cid with
  | none => ⟨st, []⟩
  | some sock =>
    ⟨st, emitToOthers st.conns cid (.chat chatId) (.dmUserTyping sock.userId)⟩

/-- The `dm-typing-stop` handler. -/
def dmTypingStop (st : GState) (cid : Nat) (chatId : String) : HOut :=
  match findConn st.conns cid with
  | none => ⟨st, []⟩
  | some sock =>
    ⟨st, emitToOthers st.conns cid (.chat chatId) (.dmUserStoppedTyping sock.userId)⟩

/-- The `join-notifications` handler. -/
def joinNotifications (st : GState) (cid : Nat) : HOut :=
  match findConn st.conns cid with
  | none => ⟨st, []⟩
  | some sock =>
    let conns' := updateConn st.conns cid (joinUserUpd sock.userId)
    ⟨{ st with conns := conns' }, [(cid, .notificationsJoined)]⟩

/-- The `disconnect` handler: if the connection had an active room,
broadcast `user-left` there; then the transport drops the
connection. -/
def disconnect (st : GState) (cid : Nat) : HOut :=
  match findConn st.conns cid with
  | none => ⟨st, []⟩
  | some sock =>
    let emits := match sock.currentRoom with
      | some r => emitToOthers st.conns cid (.room r) (.userLeft sock.userId)
      | none => []
    ⟨{ st with conns := st.conns.filter (fun c => c.connId ≠ cid) }, emits⟩

/-- HTTP result of the pagination endpoint. -/
inductive HttpResult where
  | ok (messages : List Message)
  | notFound (message : String)
  | forbidden (message : String)
deriving DecidableEq, Repr

/-- Insert a message into a list sorted by `createdAt` descending,
keeping earlier-inserted messages first among equal timestamps. -/
def insertDesc (m : Message) : List Message → List Message
  | [] => [m]
  | n :: ns => if n.createdAt > m.createdAt then n :: insertDesc m ns else m :: n :: ns

/-- `orderBy: { createdAt: 'desc' }` over the stored rows. -/
def sortByCreatedAtDesc : List Message → List Message
  | [] => []
  | m :: ms => insertDesc m (sortByCreatedAtDesc ms)

/-- `GET /api/rooms/:roomId/messages?limit=&before=`
(`src/routes/rooms.ts`): existence check, admission check, optional
cursor resolution, newest-first fetch capped at `limit`, reversed to
oldest-first in the response. -/
def getRoomMessages (db : DB) (userId roomId : String) (limit : Nat)
    (before : Option Nat) : HttpResult :=
  match findRoomWithPod db roomId with
  | none => .notFound "Room not found"
  | some (_, pod) =>
    let isMember := isPodMember db pod.id userId
    let isOwner := pod.ownerId = userId
    if !isMember && !isOwner then
      .forbidden "You must be a member of this pod to view messages"
    else
      let cutoff : Option Nat :=
        match before with
        | none => none
        | some b =>
          match db.messages.find? (fun m => m.id = b) with
          | none => none
          | some bm => some bm.createdAt
      let pool := db.messages.filter (fun m =>
        m.roomId = some roomId &&
          (match cutoff with
           | none => true
           | some t => m.createdAt < t))
      .ok (((sortByCreatedAtDesc pool).take limit).reverse)

/-! ### Supporting lemmas -/

theorem insertDesc_eq_append {m : Message} {l : List Message}
    (h : ∀ n ∈ l, m.createdAt < n.createdAt) : insertDesc m l = l ++ [m] := by
  induction l with
  | nil => rfl
  | cons n ns ih =>
    have hn : n.createdAt > m.createdAt := h n (List.mem_cons_self n ns)
    simp only [insertDesc, if_pos hn, List.cons_append]
    rw [ih (fun x hx => h x (List.mem_cons_of_mem n hx))]

theorem sortDesc_of_ascending {l : List Message}
    (h : l.Pairwise (fun a c => a.createdAt < c.createdAt)) :
    sortByCreatedAtDesc l = l.reverse := by
  induction l with
  | nil => rfl
  | cons m ms ih =>
    rw [List.pairwise_cons] at h
    simp only [sortByCreatedAtDesc, List.reverse_cons]
    rw [ih h.2, insertDesc_eq_append (fun n hn => h.1 n (List.mem_reverse.mp hn))]

theorem find?_append_left_none {α : Type} {p : α → Bool} {l1 l2 : List α}
    (h : l1.find? p = none) : (l1 ++ l2).find? p = l2.find? p := by
  induction l1 with
  | nil => rfl
  | cons a l ih =>
    rw [List.find?_eq_none] at h
    have hp : p a = false := by simpa using h a (List.mem_cons_self a l)
    have hrest : l.find? p = none :=
      List.find?_eq_none.mpr (fun x hx => h x (List.mem_cons_of_mem a hx))
    simp only [List.cons_append, List.find?_cons, hp]
    exact ih hrest

theorem auth_cond_false {db : DB} {pid ownerId u : String}
    (h : ownerId = u ∨ isPodMember db pid u = true) :
    (!isPodMember db pid u && !decide (ownerId = u)) = false := by
  rcases h with h | h
  · subst h; simp
  · simp [h]

/-- C3 — History pagination: with messages `m1..m10` in ascending
timestamp order stored for room `roomId`, `limit = 3` with no cursor
returns `[m8, m9, m10]` oldest-first; `limit = 3, before = m8.id`
returns `[m5, m6, m7]`; a cursor id matching no message is ignored and
the newest page is returned. -/
theorem getRoomMessages_pagination
    (db : DB) (u roomId : String) (room : Room) (pod : Pod)
    (m1 m2 m3 m4 m5 m6 m7 m8 m9 m10 : Message) (b : Nat)
    (hmsgs : db.messages = [m1, m2, m3, m4, m5, m6, m7, m8, m9, m10])
    (hfind : findRoomWithPod db roomId = some (room, pod))
    (hauth : pod.ownerId = u ∨ isPodMember db pod.id u = true)
    (hroom : ∀ m ∈ db.messages, m.roomId = some roomId)
    (hasc : db.messages.Pairwise (fun a c => a.createdAt < c.createdAt))
    (hids : db.messages.Pairwise (fun a c => a.id ≠ c.id))
    (hb : ∀ m ∈ db.messages, m.id ≠ b) :
    getRoomMessages db u roomId 3 none = .ok [m8, m9, m10] ∧
    getRoomMessages db u roomId 3 (some m8.id) = .ok [m5, m6, m7] ∧
    getRoomMessages db u roomId 3 (some b) = .ok [m8, m9, m10] := by
  have hsplit : db.messages = [m1, m2, m3, m4, m5, m6, m7] ++ [m8, m9, m10] := hmsgs
  have hpw := (List.pairwise_append.mp (hsplit ▸ hasc))
  have hpwids := (List.pairwise_append.mp (hsplit ▸ hids))
  refine ⟨?_, ?_, ?_⟩
  · simp only [getRoomMessages, hfind, auth_cond_false hauth, Bool.false_eq_true,
      if_false]
    rw [List.filter_eq_self.mpr (fun m hm => by simp [hroom m hm])]
    rw [sortDesc_of_ascending hasc, hmsgs]
    rfl
  · simp only [getRoomMessages, hfind, auth_cond_false hauth, Bool.false_eq_true,
      if_false]
    have hfindm8 : db.messages.find? (fun m => m.id = m8.id) = some m8 := by
      rw [hsplit, find?_append_left_none, List.find?_cons_of_pos _ (by simp)]
      exact List.find?_eq_none.mpr (fun m hm => by
        simpa using hpwids.2.2 m hm m8 (by simp))
    rw [hfindm8, hsplit]
    rw [List.filter_append,
      List.filter_eq_self.mpr (fun m hm => by
        have h8 : m.createdAt < m8.createdAt := hpw.2.2 m hm m8 (by simp)
        have hrm : m.roomId = some roomId := hroom m (hsplit ▸ List.mem_append_left _ hm)
        simp [hrm, h8]),
      List.filter_eq_nil_iff.mpr (fun m hm => by
        have hlt : ¬ m.createdAt < m8.createdAt := by
          rcases List.pairwise_cons.mp hpw.2.1 with ⟨h8, _⟩
          have hm' : m = m8 ∨ m = m9 ∨ m = m10 := by simpa using hm
          rcases hm' with rfl | rfl | rfl
          · omega
          · have := h8 m (by simp); omega
          · have := h8 m (by simp); omega
        simp [hlt]),
      List.append_nil]
    rw [sortDesc_of_ascending hpw.1]
    rfl
  · simp only [getRoomMessages, hfind, auth_cond_false hauth, Bool.false_eq_true,
      if_false]
    rw [List.find?_eq_none.mpr (fun m hm => by simpa using hb m hm)]
    rw [List.filter_eq_self.mpr (fun m hm => by simp [hroom m hm])]
    rw [sortDesc_of_ascending hasc, hmsgs]
    rfl

/-- A concrete message row used to exercise the pagination theorem. -/
def msgA (i : Nat) : Message :=
  { id := i, content := "m", roomId := some "r", chatId := none,
    senderId := "u", createdAt := i }

/-- A concrete database: pod `p` owned by `u`, room `r`, ten messages. -/
def dbA : DB :=
  { pods := [⟨"p", "u"⟩], rooms := [⟨"r", "p"⟩], podMembers := [],
    chats := [], chatParticipants := [],
    messages := [msgA 1, msgA 2, msgA 3, msgA 4, msgA 5, msgA 6, msgA 7,
      msgA 8, msgA 9, msgA 10],
    nextMessageId := 11, now := 11 }

/-- Witness for C3 at a concrete database. -/
theorem getRoomMessages_pagination_witness :
    getRoomMessages dbA "u" "r" 3 none = .ok [msgA 8, msgA 9, msgA 10] ∧
    getRoomMessages dbA "u" "r" 3 (some 8) = .ok [msgA 5, msgA 6, msgA 7] ∧
    getRoomMessages dbA "u" "r" 3 (some 99) = .ok [msgA 8, msgA 9, msgA 10] :=
  getRoomMessages_pagination dbA "u" "r" ⟨"r", "p"⟩ ⟨"p", "u"⟩
    (msgA 1) (msgA 2) (msgA 3) (msgA 4) (msgA 5) (msgA 6) (msgA 7)
    (msgA 8) (msgA 9) (msgA 10) 99 rfl (by decide) (Or.inl rfl)
    (by decide) (by decide) (by decide) (by decide)

/-- Referential integrity of the store as Prisma enforces it:
chat-participant rows reference existing chats. -/
def ChatFKIntact (db : DB) : Prop :=
  ∀ pr ∈ db.chatParticipants, ∃ c ∈ db.chats, c.id = pr.1

/-- C1 — `join-room` succeeds (emits `room-joined` to the requester)
iff the user owns the room's pod or is a member of it; on failure the
only emission is the Unauthorized error to the requester, and the
gateway state — transport memberships, active room, database — is
unchanged. -/
theorem joinRoom_succeeds_iff_authorized
    (st : GState) (cid : Nat) (sock : Conn) (roomId : String) (room : Room) (pod : Pod)
    (hc : findConn st.conns cid = some sock)
    (hr : findRoomWithPod st.db roomId = some (room, pod)) :
    (((cid, SEvent.roomJoined roomId) ∈ (joinRoom st cid roomId).emits) ↔
      (pod.ownerId = sock.userId ∨ isPodMember st.db pod.id sock.userId = true)) ∧
    (¬(pod.ownerId = sock.userId ∨ isPodMember st.db pod.id sock.userId = true) →
      (joinRoom st cid roomId).emits =
        [(cid, SEvent.errorMsg "You must be a member of this pod to join this room")] ∧
      (joinRoom st cid roomId).state = st) := by
  by_cases hauth : pod.ownerId = sock.userId ∨ isPodMember st.db pod.id sock.userId = true
  · constructor
    · simp only [joinRoom, hc, hr, auth_cond_false hauth, Bool.false_eq_true, if_false]
      simp [hauth]
    · intro h; exact absurd hauth h
  · have h1 : pod.ownerId ≠ sock.userId := fun h => hauth (Or.inl h)
    have h2 : isPodMember st.db pod.id sock.userId = false := by
      cases hmem : isPodMember st.db pod.id sock.userId
      · rfl
      · exact absurd (Or.inr hmem) hauth
    have hcond : (!isPodMember st.db pod.id sock.userId &&
        !decide (pod.ownerId = sock.userId)) = true := by simp [h1, h2]
    simp only [joinRoom, hc, hr, hcond, if_true]
    refine ⟨?_, fun _ => by constructor <;> trivial⟩
    simp [hauth]

/-- A second concrete database: pod `p` owned by `o`, member `u`, room
`r`, chat `c` with participant `u`. -/
def dbB : DB :=
  { pods := [⟨"p", "o"⟩], rooms := [⟨"r", "p"⟩], podMembers := [("p", "u")],
    chats := [⟨"c", 0⟩], chatParticipants := [("c", "u")], messages := [],
    nextMessageId := 0, now := 0 }

/-- Gateway state over `dbB`: connection 0 is user `u` (joined to
nothing), connection 1 is user `v` sitting in room `r`. -/
def stB : GState :=
  { db := dbB,
    conns := [⟨0, "u", "u", none, []⟩, ⟨1, "v", "v", some "r", [.room "r"]⟩] }

/-- Witness for C1: user `u` is a member of pod `p`, so the join
succeeds. -/
theorem joinRoom_succeeds_iff_authorized_witness :
    (((0, SEvent.roomJoined "r") ∈ (joinRoom stB 0 "r").emits) ↔
      ("o" = "u" ∨ isPodMember stB.db "p" "u" = true)) ∧
    (¬("o" = "u" ∨ isPodMember stB.db "p" "u" = true) →
      (joinRoom stB 0 "r").emits =
        [(0, SEvent.errorMsg "You must be a member of this pod to join this room")] ∧
      (joinRoom stB 0 "r").state = stB) :=
  joinRoom_succeeds_iff_authorized stB 0 ⟨0, "u", "u", none, []⟩ "r"
    ⟨"r", "p"⟩ ⟨"p", "o"⟩ rfl rfl

/-- C2 — a `send-message` whose room does not exist or whose sender is
not authorized, and a `send-dm` whose sender is not a participant —
including the case of a chat id naming no chat, given the participant
table's foreign key — emit a single error to the sender and leave the
gateway state untouched: no message row, no broadcast, no partial
state. -/
theorem send_unauthorized_clean
    (st : GState) (cid : Nat) (sock : Conn) (roomId chatId content : String)
    (hc : findConn st.conns cid = some sock) :
    ((findRoomWithPod st.db roomId = none ∨
      (∃ room pod, findRoomWithPod st.db roomId = some (room, pod) ∧
        pod.ownerId ≠ sock.userId ∧ isPodMember st.db pod.id sock.userId = false)) →
      (∃ emsg, (sendMessage st cid roomId content).emits = [(cid, SEvent.errorMsg emsg)]) ∧
      (sendMessage st cid roomId content).state = st) ∧
    (isChatParticipant st.db chatId sock.userId = false →
      (∃ emsg, (sendDm st cid chatId content).emits = [(cid, SEvent.errorMsg emsg)]) ∧
      (sendDm st cid chatId content).state = st) ∧
    (ChatFKIntact st.db → findChat st.db chatId = none →
      (∃ emsg, (sendDm st cid chatId content).emits = [(cid, SEvent.errorMsg emsg)]) ∧
      (sendDm st cid chatId content).state = st) := by
  have hdm : isChatParticipant st.db chatId sock.userId = false →
      (∃ emsg, (sendDm st cid chatId content).emits = [(cid, SEvent.errorMsg emsg)]) ∧
      (sendDm st cid chatId content).state = st := by
    intro hnp
    by_cases hct : jsTrim content = ""
    · simp only [sendDm, hc, if_pos hct]
      exact ⟨⟨_, rfl⟩, by trivial⟩
    · simp only [sendDm, hc, if_neg hct, hnp, Bool.not_false, if_true]
      exact ⟨⟨_, rfl⟩, by trivial⟩
  refine ⟨?_, hdm, ?_⟩
  · intro hbad
    by_cases hct : jsTrim content = ""
    · simp only [sendMessage, hc, if_pos hct]
      exact ⟨⟨_, rfl⟩, by trivial⟩
    · rcases hbad with hnone | ⟨room, pod, hr, ho, hm⟩
      · simp only [sendMessage, hc, if_neg hct, hnone]
        exact ⟨⟨_, rfl⟩, by trivial⟩
      · have hcond : (!isPodMember st.db pod.id sock.userId &&
            !decide (pod.ownerId = sock.userId)) = true := by simp [ho, hm]
        simp only [sendMessage, hc, if_neg hct, hr, hcond, if_true]
        exact ⟨⟨_, rfl⟩, by trivial⟩
  · intro hfk hnone
    refine hdm ?_
    cases hval : isChatParticipant st.db chatId sock.userId
    · rfl
    · exfalso
      have hmem : (chatId, sock.userId) ∈ st.db.chatParticipants := by
        simpa [isChatParticipant] using hval
      obtain ⟨c, hcmem, hcid⟩ := hfk _ hmem
      have := List.find?_eq_none.mp hnone c hcmem
      simp [hcid] at this

/-- Witness for C2: nonexistent room `nope`, chat `cx` with no
participant row for `u`. -/
theorem send_unauthorized_clean_witness :
    ((∃ emsg, (sendMessage stB 0 "nope" "hello").emits = [(0, SEvent.errorMsg emsg)]) ∧
      (sendMessage stB 0 "nope" "hello").state = stB) ∧
    ((∃ emsg, (sendDm stB 0 "cx" "hello").emits = [(0, SEvent.errorMsg emsg)]) ∧
      (sendDm stB 0 "cx" "hello").state = stB) :=
  ⟨(send_unauthorized_clean stB 0 ⟨0, "u", "u", none, []⟩ "nope" "cx" "hello" rfl).1
      (Or.inl rfl),
    (send_unauthorized_clean stB 0 ⟨0, "u", "u", none, []⟩ "nope" "cx" "hello" rfl).2.1
      rfl⟩

/-- Changing only the message-related fields of the store leaves chat
lookups unchanged. -/
theorem findChat_update (db : DB) (ms : List Message) (ni nw : Nat) (chatId : String) :
    findChat { db with messages := ms, nextMessageId := ni, now := nw } chatId =
      findChat db chatId := rfl

/-- C7 — whitespace-only content is rejected with the validation error
to the sender only, with nothing persisted, for both `send-message`
and `send-dm`; non-empty content from an authorized sender persists
exactly one message whose content is the trimmed input. -/
theorem send_content_validation
    (st : GState) (cid : Nat) (sock : Conn) (roomId chatId content : String)
    (hc : findConn st.conns cid = some sock) :
    (jsTrim content = "" →
      sendMessage st cid roomId content =
        ⟨st, [(cid, SEvent.errorMsg "Message content is required")]⟩ ∧
      sendDm st cid chatId content =
        ⟨st, [(cid, SEvent.errorMsg "Message content is required")]⟩) ∧
    (jsTrim content ≠ "" →
      (∀ room pod, findRoomWithPod st.db roomId = some (room, pod) →
        (pod.ownerId = sock.userId ∨ isPodMember st.db pod.id sock.userId = true) →
        ∃ msg : Message, msg.content = jsTrim content ∧
          (sendMessage st cid roomId content).state.db.messages =
            st.db.messages ++ [msg]) ∧
      (isChatParticipant st.db chatId sock.userId = true →
        ∀ c, findChat st.db chatId = some c →
          ∃ msg : Message, msg.content = jsTrim content ∧
            (sendDm st cid chatId content).state.db.messages =
              st.db.messages ++ [msg])) := by
  constructor
  · intro hct
    constructor
    · simp only [sendMessage, hc, if_pos hct]
    · simp only [sendDm, hc, if_pos hct]
  · intro hct
    constructor
    · intro room pod hr hauth
      simp only [sendMessage, hc, if_neg hct, hr, auth_cond_false hauth,
        Bool.false_eq_true, if_false]
      exact ⟨_, rfl, rfl⟩
    · intro hp c hfc
      simp only [sendDm, hc, if_neg hct, hp, Bool.not_true, Bool.false_eq_true, if_false]
      rw [findChat_update, hfc]
      exact ⟨_, rfl, rfl⟩

/-- Witness for C7: whitespace-only content rejected; `hello` persisted
through both pipelines. -/
theorem send_content_validation_witness :
    (sendMessage stB 0 "r" "   " =
      ⟨stB, [(0, SEvent.errorMsg "Message content is required")]⟩ ∧
     sendDm stB 0 "c" "   " =
      ⟨stB, [(0, SEvent.errorMsg "Message content is required")]⟩) ∧
    (∃ msg : Message, msg.content = jsTrim "hello" ∧
      (sendMessage stB 0 "r" "hello").state.db.messages = stB.db.messages ++ [msg]) ∧
    (∃ msg : Message, msg.content = jsTrim "hello" ∧
      (sendDm stB 0 "c" "hello").state.db.messages = stB.db.messages ++ [msg]) :=
  ⟨(send_content_validation stB 0 ⟨0, "u", "u", none, []⟩ "r" "c" "   " rfl).1
      (by decide),
    ((send_content_validation stB 0 ⟨0, "u", "u", none, []⟩ "r" "c" "hello" rfl).2
        (by decide)).1 ⟨"r", "p"⟩ ⟨"p", "o"⟩ rfl (Or.inr rfl),
    ((send_content_validation stB 0 ⟨0, "u", "u", none, []⟩ "r" "c" "hello" rfl).2
        (by decide)).2 rfl ⟨"c", 0⟩ rfl⟩

/-- C8 — `leave-room(R)` while the active room is `S ≠ R` is a silent
no-op: nothing is emitted to anyone and the whole gateway state — the
active room and all transport memberships included — is unchanged. -/
theorem leaveRoom_noop_when_not_active
    (st : GState) (cid : Nat) (sock : Conn) (S R : String)
    (hc : findConn st.conns cid = some sock)
    (hS : sock.currentRoom = some S) (hne : S ≠ R) :
    leaveRoom st cid R = ⟨st, []⟩ := by
  have hcr : ¬ (sock.currentRoom = some R) := by
    rw [hS]
    intro h
    exact hne (by simpa using h)
  simp only [leaveRoom, hc, if_neg hcr]

/-- Witness for C8: connection 1 is active in room `r`; leaving room
`x` does nothing. -/
theorem leaveRoom_noop_when_not_active_witness :
    leaveRoom stB 1 "x" = ⟨stB, []⟩ :=
  leaveRoom_noop_when_not_active stB 1 ⟨1, "v", "v", some "r", [.room "r"]⟩
    "r" "x" rfl rfl (by decide)

/-! ### Transport-level lemmas -/

theorem mem_joinChannel_self (chs : List Channel) (ch : Channel) :
    ch ∈ joinChannel chs ch := by
  by_cases h : ch ∈ chs
  · simp [joinChannel, h]
  · simp [joinChannel, h]

theorem mem_joinChannel_of_mem {chs : List Channel} {c : Channel} (ch : Channel)
    (h : c ∈ chs) : c ∈ joinChannel chs ch := by
  unfold joinChannel
  split
  · exact h
  · simp [h]

theorem joinChannel_eq_of_mem {chs : List Channel} {ch : Channel} (h : ch ∈ chs) :
    joinChannel chs ch = chs := by
  simp [joinChannel, h]

theorem mem_leaveChannel_of_ne {chs : List Channel} {c ch : Channel}
    (hmem : c ∈ chs) (hne : c ≠ ch) : c ∈ leaveChannel chs ch := by
  simp [leaveChannel, List.mem_filter, hmem, hne]

theorem findConn_some_mem {conns : List Conn} {cid : Nat} {c : Conn}
    (h : findConn conns cid = some c) : c ∈ conns ∧ c.connId = cid := by
  unfold findConn at h
  refine ⟨List.mem_of_find?_eq_some h, ?_⟩
  have h2 := List.find?_some h
  simpa using h2

theorem connId_inj {conns : List Conn} (hnd : (conns.map Conn.connId).Nodup)
    {c c' : Conn} (hc : c ∈ conns) (hc' : c' ∈ conns) (h : c.connId = c'.connId) :
    c = c' :=
  List.inj_on_of_nodup_map hnd hc hc' h

theorem findConn_updateConn (conns : List Conn) (cid : Nat) (f : Conn → Conn)
    (hf : ∀ c, (f c).connId = c.connId) :
    findConn (updateConn conns cid f) cid = Option.map f (findConn conns cid) := by
  induction conns with
  | nil => rfl
  | cons a l ih =>
    simp only [updateConn, List.map_cons, findConn, List.find?_cons] at ih ⊢
    by_cases h : a.connId = cid
    · simp [h, hf]
    · have hdec : (decide (a.connId = cid)) = false := by simp [h]
      simp only [if_neg h, hdec]
      exact ih

theorem updateConn_idem (conns : List Conn) (cid : Nat) (f : Conn → Conn)
    (hfc : ∀ c, (f c).connId = c.connId) (hff : ∀ c, f (f c) = f c) :
    updateConn (updateConn conns cid f) cid f = updateConn conns cid f := by
  unfold updateConn
  rw [List.map_map]
  apply List.map_congr_left
  intro a _
  by_cases h : a.connId = cid
  · simp [Function.comp, h, hfc, hff]
  · simp [Function.comp, h]

theorem mem_emitToChannel_iff (conns : List Conn) (ch : Channel) (ev : SEvent) (i : Nat) :
    ((i, ev) ∈ emitToChannel conns ch ev) ↔
      ∃ c ∈ conns, c.connId = i ∧ ch ∈ c.channels := by
  simp only [emitToChannel, channelMembers, List.mem_map, List.mem_filter,
    Prod.mk.injEq, and_true, decide_eq_true_eq]
  constructor
  · rintro ⟨j, ⟨c, ⟨hc, hch⟩, rfl⟩, rfl⟩
    exact ⟨c, hc, rfl, hch⟩
  · rintro ⟨c, hc, rfl, hch⟩
    exact ⟨c.connId, ⟨c, ⟨hc, hch⟩, rfl⟩, rfl⟩

theorem mem_emitToOthers_of {conns : List Conn} {ch : Channel} (ev : SEvent) {cid : Nat}
    {c : Conn} (hmem : c ∈ conns) (hch : ch ∈ c.channels) (hne : c.connId ≠ cid) :
    (c.connId, ev) ∈ emitToOthers conns cid ch ev := by
  simp only [emitToOthers, channelMembers, List.mem_map, List.mem_filter,
    Prod.mk.injEq, and_true, decide_eq_true_eq]
  exact ⟨c.connId, ⟨⟨c, by simp [hmem, hch], rfl⟩, by simpa using hne⟩, rfl⟩

/-- Counterexample to C4: in `stB` the chat id `cx` names no chat, yet
`join-chat(cx)` and `send-dm(cx)` emit exactly the not-a-participant
error — the very error an existing chat (`c`, requested by
non-participant `v` on connection 1) produces when the admission
predicate fails.  There is no distinct NotFound error for chats. -/
theorem chat_notFound_not_distinct_counterexample :
    findChat stB.db "cx" = none ∧
    (joinChat stB 0 "cx").emits =
      [(0, SEvent.errorMsg "You are not a participant of this chat")] ∧
    (sendDm stB 0 "cx" "hello").emits =
      [(0, SEvent.errorMsg "You are not a participant of this chat")] ∧
    findChat stB.db "c" = some ⟨"c", 0⟩ ∧
    (joinChat stB 1 "c").emits =
      [(1, SEvent.errorMsg "You are not a participant of this chat")] := by
  refine ⟨rfl, ?_, ?_, rfl, ?_⟩ <;> decide

/-- C4 amended — for rooms, a nonexistent room id yields the NotFound
error `Room not found`, distinct from the Unauthorized error emitted
when the room exists but the admission predicate fails; for chats no
such distinction exists: whether or not the chat id names a chat, a
failing participant lookup yields the same
`You are not a participant of this chat` error from `join-chat` and
`send-dm`. -/
theorem notFound_vs_unauthorized
    (st : GState) (cid : Nat) (sock : Conn) (roomId chatId content : String)
    (hc : findConn st.conns cid = some sock)
    (hct : jsTrim content ≠ "") :
    (findRoomWithPod st.db roomId = none →
      (joinRoom st cid roomId).emits = [(cid, SEvent.errorMsg "Room not found")] ∧
      (sendMessage st cid roomId content).emits =
        [(cid, SEvent.errorMsg "Room not found")]) ∧
    (∀ room pod, findRoomWithPod st.db roomId = some (room, pod) →
      pod.ownerId ≠ sock.userId → isPodMember st.db pod.id sock.userId = false →
      (joinRoom st cid roomId).emits =
        [(cid, SEvent.errorMsg "You must be a member of this pod to join this room")]) ∧
    (isChatParticipant st.db chatId sock.userId = false →
      (joinChat st cid chatId).emits =
        [(cid, SEvent.errorMsg "You are not a participant of this chat")] ∧
      (sendDm st cid chatId content).emits =
        [(cid, SEvent.errorMsg "You are not a participant of this chat")]) ∧
    SEvent.errorMsg "Room not found" ≠
      SEvent.errorMsg "You must be a member of this pod to join this room" := by
  refine ⟨?_, ?_, ?_, by decide⟩
  · intro hnone
    constructor
    · simp only [joinRoom, hc, hnone]
    · simp only [sendMessage, hc, if_neg hct, hnone]
  · intro room pod hr ho hm
    have hcond : (!isPodMember st.db pod.id sock.userId &&
        !decide (pod.ownerId = sock.userId)) = true := by simp [ho, hm]
    simp only [joinRoom, hc, hr, hcond, if_true]
  · intro hnp
    constructor
    · simp only [joinChat, hc, hnp, Bool.not_false, if_true]
    · simp only [sendDm, hc, if_neg hct, hnp, Bool.not_false, if_true]

/-- Witness for the amended C4: room `nope` does not exist; chat `cx`
does not exist; user `v` is no participant of the existing chat `c`. -/
theorem notFound_vs_unauthorized_witness :
    ((joinRoom stB 0 "nope").emits = [(0, SEvent.errorMsg "Room not found")] ∧
      (sendMessage stB 0 "nope" "hello").emits =
        [(0, SEvent.errorMsg "Room not found")]) ∧
    ((joinRoom stB 1 "r").emits =
      [(1, SEvent.errorMsg "You must be a member of this pod to join this room")]) ∧
    ((joinChat stB 0 "cx").emits =
      [(0, SEvent.errorMsg "You are not a participant of this chat")] ∧
      (sendDm stB 0 "cx" "hello").emits =
        [(0, SEvent.errorMsg "You are not a participant of this chat")]) :=
  ⟨(notFound_vs_unauthorized stB 0 ⟨0, "u", "u", none, []⟩ "nope" "cx" "hello"
      rfl (by decide)).1 rfl,
    (notFound_vs_unauthorized stB 1 ⟨1, "v", "v", some "r", [.room "r"]⟩ "r" "cx" "hello"
      rfl (by decide)).2.1 ⟨"r", "p"⟩ ⟨"p", "o"⟩ rfl (by decide) rfl,
    (notFound_vs_unauthorized stB 0 ⟨0, "u", "u", none, []⟩ "nope" "cx" "hello"
      rfl (by decide)).2.2.1 rfl⟩

/-- Counterexample to C5: in `stB`, user `u` (connection 0) is
authorized for room `r` but never joined its channel; the send
succeeds — the message is persisted and broadcast to the channel's one
occupant (connection 1) — yet the sender's own connection receives no
echo. -/
theorem sender_echo_counterexample :
    (sendMessage stB 0 "r" "hello").state.db.messages =
      [⟨0, "hello", some "r", none, "u", 0⟩] ∧
    (sendMessage stB 0 "r" "hello").emits =
      [(1, SEvent.newMessage ⟨0, "hello", some "r", none, "u", 0⟩)] := by
  constructor <;> decide

/-- C5 amended — a successful `send-message`/`send-dm` persists exactly
one message and broadcasts it to precisely the connections currently
joined to the room's/chat's channel; the sender's own connection
receives the echo iff it is itself joined to that channel (the
broadcast does not exclude the sender, but neither does it reach a
sender who never joined). -/
theorem send_broadcast_exactly_channel
    (st : GState) (cid : Nat) (sock : Conn) (roomId chatId content : String)
    (hc : findConn st.conns cid = some sock)
    (hnd : (st.conns.map Conn.connId).Nodup)
    (hct : jsTrim content ≠ "") :
    (∀ room pod, findRoomWithPod st.db roomId = some (room, pod) →
      (pod.ownerId = sock.userId ∨ isPodMember st.db pod.id sock.userId = true) →
      ∃ msg : Message,
        (sendMessage st cid roomId content).state.db.messages =
          st.db.messages ++ [msg] ∧
        ∀ c ∈ st.conns,
          (((c.connId, SEvent.newMessage msg) ∈ (sendMessage st cid roomId content).emits) ↔
            Channel.room roomId ∈ c.channels)) ∧
    (isChatParticipant st.db chatId sock.userId = true →
      ∀ ch, findChat st.db chatId = some ch →
      ∃ msg : Message,
        (sendDm st cid chatId content).state.db.messages =
          st.db.messages ++ [msg] ∧
        ∀ c ∈ st.conns,
          (((c.connId, SEvent.newDm msg) ∈ (sendDm st cid chatId content).emits) ↔
            Channel.chat chatId ∈ c.channels)) := by
  constructor
  · intro room pod hr hauth
    simp only [sendMessage, hc, if_neg hct, hr, auth_cond_false hauth,
      Bool.false_eq_true, if_false]
    refine ⟨_, rfl, ?_⟩
    intro c hcm
    rw [mem_emitToChannel_iff]
    constructor
    · rintro ⟨c', hc', hid, hch⟩
      exact connId_inj hnd hc' hcm hid ▸ hch
    · intro hch
      exact ⟨c, hcm, rfl, hch⟩
  · intro hp ch hfc
    simp only [sendDm, hc, if_neg hct, hp, Bool.not_true, Bool.false_eq_true, if_false]
    rw [findChat_update, hfc]
    refine ⟨_, rfl, ?_⟩
    intro c hcm
    rw [mem_emitToChannel_iff]
    constructor
    · rintro ⟨c', hc', hid, hch'⟩
      exact connId_inj hnd hc' hcm hid ▸ hch'
    · intro hch'
      exact ⟨c, hcm, rfl, hch'⟩

/-- Gateway state where both connections have joined room `r`'s channel
and chat `c`'s channel. -/
def stC : GState :=
  { db := dbB,
    conns := [⟨0, "u", "u", some "r", [.room "r", .chat "c"]⟩,
              ⟨1, "v", "v", some "r", [.room "r"]⟩] }

/-- Witness for the amended C5: the sender has joined the channel and
receives its own echo, as does the other occupant. -/
theorem send_broadcast_exactly_channel_witness :
    ∃ msg : Message,
      (sendMessage stC 0 "r" "hello").state.db.messages = stC.db.messages ++ [msg] ∧
      ∀ c ∈ stC.conns,
        (((c.connId, SEvent.newMessage msg) ∈ (sendMessage stC 0 "r" "hello").emits) ↔
          Channel.room "r" ∈ c.channels) :=
  (send_broadcast_exactly_channel stC 0 ⟨0, "u", "u", some "r", [.room "r", .chat "c"]⟩
      "r" "c" "hello" rfl (by decide) (by decide)).1 ⟨"r", "p"⟩ ⟨"p", "o"⟩ rfl
    (Or.inr rfl)

/-- Counterexample to C6: member `u` (connection 0) joins room `r`
twice in `stB`; connection 1 is an occupant and receives a `user-joined`
broadcast from the SECOND join as well — the duplicate presence
broadcast is not suppressed. -/
theorem duplicate_userJoined_counterexample :
    ((1, SEvent.userJoined "u") ∈ (joinRoom stB 0 "r").emits) ∧
    ((1, SEvent.userJoined "u") ∈
      (joinRoom (joinRoom stB 0 "r").state 0 "r").emits) ∧
    ((0, SEvent.roomJoined "r") ∈
      (joinRoom (joinRoom stB 0 "r").state 0 "r").emits) := by
  refine ⟨?_, ?_, ?_⟩ <;> decide

theorem joinRoomUpd_connId (roomId : String) (c : Conn) :
    (joinRoomUpd roomId c).connId = c.connId := rfl

theorem joinRoomUpd_idem (roomId : String) (c : Conn) :
    joinRoomUpd roomId (joinRoomUpd roomId c) = joinRoomUpd roomId c := by
  simp [joinRoomUpd, joinChannel_eq_of_mem (mem_joinChannel_self _ _)]

/-- C6 amended — two consecutive successful `join-room(R)` calls from
the same connection produce two `room-joined` acknowledgments to the
joiner while the second call changes nothing in the gateway state (the
transport audience membership stays single), but the second call
re-broadcasts `user-joined` to every other occupant of the room's
channel: the duplicate presence broadcast is not suppressed. -/
theorem joinRoom_twice
    (st : GState) (cid : Nat) (sock : Conn) (roomId : String) (room : Room) (pod : Pod)
    (hc : findConn st.conns cid = some sock)
    (hr : findRoomWithPod st.db roomId = some (room, pod))
    (hauth : pod.ownerId = sock.userId ∨ isPodMember st.db pod.id sock.userId = true) :
    ((cid, SEvent.roomJoined roomId) ∈ (joinRoom st cid roomId).emits) ∧
    ((cid, SEvent.roomJoined roomId) ∈
      (joinRoom (joinRoom st cid roomId).state cid roomId).emits) ∧
    (joinRoom (joinRoom st cid roomId).state cid roomId).state =
      (joinRoom st cid roomId).state ∧
    (∀ c ∈ (joinRoom st cid roomId).state.conns, c.connId ≠ cid →
      Channel.room roomId ∈ c.channels →
      (c.connId, SEvent.userJoined sock.userId) ∈
        (joinRoom (joinRoom st cid roomId).state cid roomId).emits) := by
  have hc1 : findConn (updateConn st.conns cid (joinRoomUpd roomId)) cid =
      some (joinRoomUpd roomId sock) := by
    rw [findConn_updateConn _ _ _ (joinRoomUpd_connId roomId), hc]
    rfl
  have hidem : updateConn (updateConn st.conns cid (joinRoomUpd roomId)) cid
      (joinRoomUpd roomId) = updateConn st.conns cid (joinRoomUpd roomId) :=
    updateConn_idem _ _ _ (joinRoomUpd_connId roomId) (joinRoomUpd_idem roomId)
  simp only [joinRoom, hc, hr, auth_cond_false hauth, Bool.false_eq_true, if_false,
    hc1, joinRoomUpd]
  refine ⟨by simp, by simp, ?_, ?_⟩
  · simp only [GState.mk.injEq, true_and]
    exact hidem
  · intro c hcm hne hch
    rw [hidem]
    exact List.mem_append_left _
      (mem_emitToOthers_of (SEvent.userJoined sock.userId) hcm hch hne)

/-- Witness for the amended C6 in `stB`: member `u` on connection 0
joins room `r` twice. -/
theorem joinRoom_twice_witness :
    ((0, SEvent.roomJoined "r") ∈ (joinRoom stB 0 "r").emits) ∧
    ((0, SEvent.roomJoined "r") ∈
      (joinRoom (joinRoom stB 0 "r").state 0 "r").emits) ∧
    (joinRoom (joinRoom stB 0 "r").state 0 "r").state =
      (joinRoom stB 0 "r").state ∧
    (∀ c ∈ (joinRoom stB 0 "r").state.conns, c.connId ≠ 0 →
      Channel.room "r" ∈ c.channels →
      (c.connId, SEvent.userJoined "u") ∈
        (joinRoom (joinRoom stB 0 "r").state 0 "r").emits) :=
  joinRoom_twice stB 0 ⟨0, "u", "u", none, []⟩ "r" ⟨"r", "p"⟩ ⟨"p", "o"⟩
    rfl rfl (Or.inr rfl)

/-! ### The active-room invariant -/

/-- Invariant (a) of the data model: a connection's active room, if
set, is a room the connection has actually joined at the transport
level. -/
def ActiveRoomJoined (st : GState) : Prop :=
  ∀ c ∈ st.conns, ∀ r, c.currentRoom = some r → Channel.room r ∈ c.channels

theorem activeRoomJoined_congr {st st' : GState} (h : ActiveRoomJoined st)
    (he : st'.conns = st.conns) : ActiveRoomJoined st' := by
  intro c hc
  exact h c (he ▸ hc)

theorem activeRoomJoined_filter {st st' : GState} (h : ActiveRoomJoined st)
    {p : Conn → Bool} (he : st'.conns = st.conns.filter p) : ActiveRoomJoined st' := by
  intro c hc
  rw [he] at hc
  exact h c (List.mem_filter.mp hc).1

theorem activeRoomJoined_updateConn {st st' : GState} (h : ActiveRoomJoined st)
    {cid : Nat} {f : Conn → Conn}
    (hf : ∀ c, (∀ r, c.currentRoom = some r → Channel.room r ∈ c.channels) →
      ∀ r, (f c).currentRoom = some r → Channel.room r ∈ (f c).channels)
    (he : st'.conns = updateConn st.conns cid f) : ActiveRoomJoined st' := by
  intro c hc r hr
  rw [he] at hc
  obtain ⟨c0, hc0, hceq⟩ := List.mem_map.mp hc
  subst hceq
  by_cases hid : c0.connId = cid <;> simp only [hid, if_true, if_false] at hr ⊢
  · exact hf c0 (h c0 hc0) r hr
  · exact h c0 hc0 r hr

theorem joinRoomUpd_keeps (roomId : String) (c : Conn)
    (_hinv : ∀ r, c.currentRoom = some r → Channel.room r ∈ c.channels) :
    ∀ r, (joinRoomUpd roomId c).currentRoom = some r →
      Channel.room r ∈ (joinRoomUpd roomId c).channels := by
  intro r hr
  obtain rfl : roomId = r := by simpa [joinRoomUpd] using hr
  exact mem_joinChannel_self _ _

theorem leaveRoomUpd_keeps (roomId : String) (c : Conn)
    (_hinv : ∀ r, c.currentRoom = some r → Channel.room r ∈ c.channels) :
    ∀ r, (leaveRoomUpd roomId c).currentRoom = some r →
      Channel.room r ∈ (leaveRoomUpd roomId c).channels := by
  intro r hr
  simp [leaveRoomUpd] at hr

theorem joinChatUpd_keeps (chatId : String) (c : Conn)
    (hinv : ∀ r, c.currentRoom = some r → Channel.room r ∈ c.channels) :
    ∀ r, (joinChatUpd chatId c).currentRoom = some r →
      Channel.room r ∈ (joinChatUpd chatId c).channels := by
  intro r hr
  exact mem_joinChannel_of_mem _ (hinv r hr)

theorem leaveChatUpd_keeps (chatId : String) (c : Conn)
    (hinv : ∀ r, c.currentRoom = some r → Channel.room r ∈ c.channels) :
    ∀ r, (leaveChatUpd chatId c).currentRoom = some r →
      Channel.room r ∈ (leaveChatUpd chatId c).channels := by
  intro r hr
  exact mem_leaveChannel_of_ne (hinv r hr) (by simp)

theorem joinUserUpd_keeps (userId : String) (c : Conn)
    (hinv : ∀ r, c.currentRoom = some r → Channel.room r ∈ c.channels) :
    ∀ r, (joinUserUpd userId c).currentRoom = some r →
      Channel.room r ∈ (joinUserUpd userId c).channels := by
  intro r hr
  exact mem_joinChannel_of_mem _ (hinv r hr)

theorem joinRoom_conns (st : GState) (cid : Nat) (roomId : String) :
    (joinRoom st cid roomId).state.conns = st.conns ∨
    (joinRoom st cid roomId).state.conns =
      updateConn st.conns cid (joinRoomUpd roomId) := by
  unfold joinRoom
  repeat' first | split | dsimp only
  all_goals first | exact Or.inl rfl | exact Or.inr rfl

theorem leaveRoom_conns (st : GState) (cid : Nat) (roomId : String) :
    (leaveRoom st cid roomId).state.conns = st.conns ∨
    (leaveRoom st cid roomId).state.conns =
      updateConn st.conns cid (leaveRoomUpd roomId) := by
  unfold leaveRoom
  repeat' first | split | dsimp only
  all_goals first | exact Or.inl rfl | exact Or.inr rfl

theorem sendMessage_conns (st : GState) (cid : Nat) (roomId content : String) :
    (sendMessage st cid roomId content).state.conns = st.conns := by
  unfold sendMessage
  repeat' first | split | dsimp only

theorem sendDm_conns (st : GState) (cid : Nat) (chatId content : String) :
    (sendDm st cid chatId content).state.conns = st.conns := by
  unfold sendDm
  repeat' first | split | dsimp only

theorem typingStart_conns (st : GState) (cid : Nat) (roomId : String) :
    (typingStart st cid roomId).state.conns = st.conns := by
  unfold typingStart
  repeat' first | split | dsimp only

theorem typingStop_conns (st : GState) (cid : Nat) (roomId : String) :
    (typingStop st cid roomId).state.conns = st.conns := by
  unfold typingStop
  repeat' first | split | dsimp only

theorem dmTypingStart_conns (st : GState) (cid : Nat) (chatId : String) :
    (dmTypingStart st cid chatId).state.conns = st.conns := by
  unfold dmTypingStart
  repeat' first | split | dsimp only

theorem dmTypingStop_conns (st : GState) (cid : Nat) (chatId : String) :
    (dmTypingStop st cid chatId).state.conns = st.conns := by
  unfold dmTypingStop
  repeat' first | split | dsimp only

theorem joinChat_conns (st : GState) (cid : Nat) (chatId : String) :
    (joinChat st cid chatId).state.conns = st.conns ∨
    (joinChat st cid chatId).state.conns =
      updateConn st.conns cid (joinChatUpd chatId) := by
  unfold joinChat
  repeat' first | split | dsimp only
  all_goals first | exact Or.inl rfl | exact Or.inr rfl

theorem leaveChat_conns (st : GState) (cid : Nat) (chatId : String) :
    (leaveChat st cid chatId).state.conns = st.conns ∨
    (leaveChat st cid chatId).state.conns =
      updateConn st.conns cid (leaveChatUpd chatId) := by
  unfold leaveChat
  repeat' first | split | dsimp only
  all_goals first | exact Or.inl rfl | exact Or.inr rfl

theorem joinNotifications_conns (st : GState) (cid : Nat) :
    (joinNotifications st cid).state.conns = st.conns ∨
    ∃ u, (joinNotifications st cid).state.conns =
      updateConn st.conns cid (joinUserUpd u) := by
  unfold joinNotifications
  split
  · exact Or.inl rfl
  · rename_i sock _
    exact Or.inr ⟨sock.userId, rfl⟩

theorem disconnect_conns (st : GState) (cid : Nat) :
    (disconnect st cid).state.conns = st.conns ∨
    (disconnect st cid).state.conns =
      st.conns.filter (fun c => c.connId ≠ cid) := by
  unfold disconnect
  repeat' first | split | dsimp only
  all_goals first | exact Or.inl rfl | exact Or.inr rfl

/-- C9 — every gateway operation preserves the invariant that a set
active room is one the connection is joined to at the transport
level. -/
theorem gateway_preserves_activeRoomJoined
    (st : GState) (cid : Nat) (roomId chatId content : String)
    (h : ActiveRoomJoined st) :
    ActiveRoomJoined (joinRoom st cid roomId).state ∧
    ActiveRoomJoined (leaveRoom st cid roomId).state ∧
    ActiveRoomJoined (sendMessage st cid roomId content).state ∧
    ActiveRoomJoined (typingStart st cid roomId).state ∧
    ActiveRoomJoined (typingStop st cid roomId).state ∧
    ActiveRoomJoined (joinChat st cid chatId).state ∧
    ActiveRoomJoined (leaveChat st cid chatId).state ∧
    ActiveRoomJoined (sendDm st cid chatId content).state ∧
    ActiveRoomJoined (dmTypingStart st cid chatId).state ∧
    ActiveRoomJoined (dmTypingStop st cid chatId).state ∧
    ActiveRoomJoined (joinNotifications st cid).state ∧
    ActiveRoomJoined (disconnect st cid).state := by
  refine ⟨?_, ?_, ?_, ?_, ?_, ?_, ?_, ?_, ?_, ?_, ?_, ?_⟩
  · rcases joinRoom_conns st cid roomId with he | he
    · exact activeRoomJoined_congr h he
    · exact activeRoomJoined_updateConn h (joinRoomUpd_keeps roomId) he
  · rcases leaveRoom_conns st cid roomId with he | he
    · exact activeRoomJoined_congr h he
    · exact activeRoomJoined_updateConn h (leaveRoomUpd_keeps roomId) he
  · exact activeRoomJoined_congr h (sendMessage_conns st cid roomId content)
  · exact activeRoomJoined_congr h (typingStart_conns st cid roomId)
  · exact activeRoomJoined_congr h (typingStop_conns st cid roomId)
  · rcases joinChat_conns st cid chatId with he | he
    · exact activeRoomJoined_congr h he
    · exact activeRoomJoined_updateConn h (joinChatUpd_keeps chatId) he
  · rcases leaveChat_conns st cid chatId with he | he
    · exact activeRoomJoined_congr h he
    · exact activeRoomJoined_updateConn h (leaveChatUpd_keeps chatId) he
  · exact activeRoomJoined_congr h (sendDm_conns st cid chatId content)
  · exact activeRoomJoined_congr h (dmTypingStart_conns st cid chatId)
  · exact activeRoomJoined_congr h (dmTypingStop_conns st cid chatId)
  · rcases joinNotifications_conns st cid with he | ⟨u, he⟩
    · exact activeRoomJoined_congr h he
    · exact activeRoomJoined_updateConn h (joinUserUpd_keeps u) he
  · rcases disconnect_conns st cid with he | he
    · exact activeRoomJoined_congr h he
    · exact activeRoomJoined_filter h he

/-- Witness for C9 at the concrete state `stB` (whose two connections
satisfy the invariant). -/
theorem gateway_preserves_activeRoomJoined_witness :
    ActiveRoomJoined (joinRoom stB 0 "r").state ∧
    ActiveRoomJoined (leaveRoom stB 0 "r").state ∧
    ActiveRoomJoined (sendMessage stB 0 "r" "hello").state ∧
    ActiveRoomJoined (typingStart stB 0 "r").state ∧
    ActiveRoomJoined (typingStop stB 0 "r").state ∧
    ActiveRoomJoined (joinChat stB 0 "c").state ∧
    ActiveRoomJoined (leaveChat stB 0 "c").state ∧
    ActiveRoomJoined (sendDm stB 0 "c" "hello").state ∧
    ActiveRoomJoined (dmTypingStart stB 0 "c").state ∧
    ActiveRoomJoined (dmTypingStop stB 0 "c").state ∧
    ActiveRoomJoined (joinNotifications stB 0).state ∧
    ActiveRoomJoined (disconnect stB 0).state :=
  gateway_preserves_activeRoomJoined stB 0 "r" "c" "hello" (by
    intro c hc r hr
    simp only [stB, List.mem_cons, List.not_mem_nil, or_false] at hc
    rcases hc with rfl | rfl
    · simp at hr
    · obtain rfl : "r" = r := by simpa using hr
      simp)

/-- C10 — `send-message` requires neither transport membership of the
room's channel nor an active room: an authorized sender who never
joined the room's channel still gets the message persisted and
broadcast to the channel's occupants, while receiving no echo
itself. -/
theorem sendMessage_without_join
    (st : GState) (cid : Nat) (sock : Conn) (roomId content : String)
    (room : Room) (pod : Pod)
    (hc : findConn st.conns cid = some sock)
    (hr : findRoomWithPod st.db roomId = some (room, pod))
    (hauth : pod.ownerId = sock.userId ∨ isPodMember st.db pod.id sock.userId = true)
    (hct : jsTrim content ≠ "")
    (hnj : Channel.room roomId ∉ sock.channels)
    (hnd : (st.conns.map Conn.connId).Nodup) :
    ∃ msg : Message,
      (sendMessage st cid roomId content).state.db.messages =
        st.db.messages ++ [msg] ∧
      (∀ c ∈ st.conns, Channel.room roomId ∈ c.channels →
        (c.connId, SEvent.newMessage msg) ∈ (sendMessage st cid roomId content).emits) ∧
      (cid, SEvent.newMessage msg) ∉ (sendMessage st cid roomId content).emits := by
  simp only [sendMessage, hc, if_neg hct, hr, auth_cond_false hauth,
    Bool.false_eq_true, if_false]
  refine ⟨_, rfl, ?_, ?_⟩
  · intro c hcm hch
    exact (mem_emitToChannel_iff _ _ _ _).mpr ⟨c, hcm, rfl, hch⟩
  · intro hmem
    obtain ⟨c, hcm, hid, hch⟩ := (mem_emitToChannel_iff _ _ _ _).mp hmem
    obtain ⟨hs, hsid⟩ := findConn_some_mem hc
    have hcs : c = sock := connId_inj hnd hcm hs (by rw [hid, hsid])
    subst hcs
    exact hnj hch

/-- Witness for C10: in `stB`, user `u` on connection 0 never joined
room `r`'s channel; the send persists, connection 1 gets the broadcast,
connection 0 gets no echo. -/
theorem sendMessage_without_join_witness :
    ∃ msg : Message,
      (sendMessage stB 0 "r" "hello").state.db.messages =
        stB.db.messages ++ [msg] ∧
      (∀ c ∈ stB.conns, Channel.room "r" ∈ c.channels →
        (c.connId, SEvent.newMessage msg) ∈ (sendMessage stB 0 "r" "hello").emits) ∧
      (0, SEvent.newMessage msg) ∉ (sendMessage stB 0 "r" "hello").emits :=
  sendMessage_without_join stB 0 ⟨0, "u", "u", none, []⟩ "r" "hello" ⟨"r", "p"⟩
    ⟨"p", "o"⟩ rfl rfl (Or.inr rfl) (by decide) (by decide) (by decide)

end ZubixPod
